import Mathlib

/-!
Verification model of the duration parser `parse` in `drip/timedelta.py`.

The Python function matches the input against two regular expressions in
order (a fixed "database" format, then a flexible unit-word format),
collects the named capture groups as strings (an absent group defaults to
the integer 0 via `groupdict(0)`), distributes a leading minus sign of the
clock-time part over hours/minutes/seconds by string concatenation, and
converts every field with `float` before summing them into a `timedelta`.

The embedding works over `List Char` (ASCII inputs; the word-character
class of the regexes is modelled as `[a-zA-Z0-9_]`).  Numbers are
modelled as rationals: every string reaching the conversion step is a
plain decimal numeral, whose exact value is a rational, and the final
`timedelta` is identified with its total number of seconds.  Both regexes
are translated as deterministic greedy scanners; each greedy choice is
justified in a comment at the point where it is made (in each case the
character the greedy branch consumes cannot be consumed by anything that
follows it in the pattern, so backtracking can never turn a greedy
failure into a success).
-/

namespace Timedelta

/-- Numeric value of a list of decimal digit characters. -/
def natOfDigits (cs : List Char) : Nat :=
  cs.foldl (fun a c => 10 * a + (c.toNat - 48)) 0

/-- Value of an unsigned decimal numeral with an optional fractional part
(`digits`, `digits.digits` or `.digits`, the only unsigned shapes the
capture groups can produce).  Models Python `float` on such text. -/
def unsignedVal (cs : List Char) : ℚ :=
  let intPart := cs.takeWhile (fun c => c != '.')
  match cs.dropWhile (fun c => c != '.') with
  | '.' :: frac =>
      (natOfDigits intPart : ℚ) + (natOfDigits frac : ℚ) / ((10 : ℚ) ^ frac.length)
  | _ => (natOfDigits intPart : ℚ)

/-- Python `float` on a captured numeric string: an optional sign followed
by an unsigned decimal numeral.  The empty case is never reached (every
capture is nonempty). -/
def floatOfStr : List Char → ℚ
  | [] => 0
  | c :: rest =>
      if c = '-' then -unsignedVal rest
      else if c = '+' then unsignedVal rest
      else unsignedVal (c :: rest)

/-- Python `float` applied to a `groupdict(0)` entry: an absent group is
the integer 0, a present group is its captured text. -/
def floatOfGroup : Option (List Char) → ℚ
  | none => 0
  | some v => floatOfStr v

/-- Greedy `\d+`: the maximal (nonempty) run of digits, and the rest.  In
every context where `\d+` occurs the next pattern element cannot match a
digit, so the maximal run is the only viable choice. -/
def parseDigits (cs : List Char) : Option (List Char × List Char) :=
  let ds := cs.takeWhile Char.isDigit
  if ds.isEmpty then none else some (ds, cs.dropWhile Char.isDigit)

/-- Capture `[-+]?\d+` (the day count of the database grammar).  Greedy on
the sign is forced: if a sign character is present and the optional sign
matches empty, `\d+` fails on the sign character at once. -/
def parseSignedInt (cs : List Char) : Option (List Char × List Char) :=
  match cs with
  | c :: rest =>
      if c = '-' ∨ c = '+' then
        match parseDigits rest with
        | some (ds, r) => some (c :: ds, r)
        | none => none
      else parseDigits cs
  | [] => none

/-- Consume one optional literal character, greedily.  Used for `s?`, `,?`
and similar pieces; at each use site the continuation cannot match the
character, so greediness is forced. -/
def optChar (c : Char) (cs : List Char) : List Char :=
  match cs with
  | x :: r => if x = c then r else cs
  | [] => []

/-- Part `((?P<days>[-+]?\d+) days?,? )?` of the database grammar: a
signed integer, the literal ` day`, optional `s`, optional `,`, and a
mandatory space. -/
def parseDayPart (cs : List Char) : Option (List Char × List Char) :=
  match parseSignedInt cs with
  | some (ds, r) =>
      match r with
      | ' ' :: 'd' :: 'a' :: 'y' :: r2 =>
          (match optChar ',' (optChar 's' r2) with
           | ' ' :: r3 => some (ds, r3)
           | _ => none)
      | _ => none
  | none => none

/-- Capture `\d+(\.\d+)?` (the seconds of the database grammar).  If the
dot is not followed by digits the optional fractional group matches empty
and the dot is left unconsumed (the `$` that follows then fails). -/
def parseSecondsCap (cs : List Char) : Option (List Char × List Char) :=
  match parseDigits cs with
  | some (ds, r) =>
      match r with
      | '.' :: r2 =>
          (match parseDigits r2 with
           | some (fs, r3) => some (ds ++ '.' :: fs, r3)
           | none => some (ds, r))
      | _ => some (ds, r)
  | none => none

/-- The capture groups of the database grammar (`sign` is the text of the
group `[-+]?`: empty, `-` or `+`). -/
structure DBGroups where
  days : Option (List Char)
  sign : List Char
  hours : List Char
  minutes : List Char
  seconds : Option (List Char)
  deriving DecidableEq

/-- Part `(?P<sign>[-+]?)(?P<hours>\d+):(?P<minutes>\d+)(:(?P<seconds>\d+(\.\d+)?))?$`
of the database grammar, anchored at the end of the input.  Greedy on the
optional sign is forced (a skipped sign character fails `\d+`), and the
optional seconds group must match whenever a `:` remains, since `$`
cannot consume it. -/
def parseClock (cs : List Char) :
    Option (List Char × List Char × List Char × Option (List Char)) :=
  let sr : List Char × List Char :=
    match cs with
    | c :: r => if c = '-' ∨ c = '+' then ([c], r) else ([], cs)
    | [] => ([], [])
  match parseDigits sr.2 with
  | some (hs, r1) =>
      match r1 with
      | ':' :: r2 =>
          (match parseDigits r2 with
           | some (ms, r3) =>
               (match r3 with
                | [] => some (sr.1, hs, ms, none)
                | ':' :: r4 =>
                    (match parseSecondsCap r4 with
                     | some (ss, []) => some (sr.1, hs, ms, some ss)
                     | _ => none)
                | _ => none)
           | none => none)
      | _ => none
  | none => none

/-- The full database regex.  The only regex-level alternative is whether
the optional day part participates; the engine tries it first (greedy)
and falls back to the clock part alone. -/
def dbMatch (cs : List Char) : Option DBGroups :=
  match parseDayPart cs with
  | some (ds, r) =>
      (match parseClock r with
       | some (sg, h, m, s) => some ⟨some ds, sg, h, m, s⟩
       | none =>
           match parseClock cs with
           | some (sg, h, m, s) => some ⟨none, sg, h, m, s⟩
           | none => none)
  | none =>
      match parseClock cs with
      | some (sg, h, m, s) => some ⟨none, sg, h, m, s⟩
      | none => none

/-- The word-character class `\w` of the regexes, on ASCII input. -/
def isWordChar (c : Char) : Bool := c.isAlphanum || c == '_'

/-- Greedy `\W*`.  Everything that can follow it in the flexible pattern
either is a word character (a unit letter), or is part of a numeral whose
digits end at the same position no matter how many of the leading
non-word characters (`-`, `.`) the numeral itself absorbs, so the
continuation succeeds from the maximal skip whenever it succeeds from any
shorter one.  Note the consequence, visible in the doctests: `\W*`
swallows a `-` (and a `.`) standing before the next component and the
sign is silently dropped. -/
def skipNonWord (cs : List Char) : List Char :=
  cs.dropWhile (fun c => !(isWordChar c))

/-- Capture `((\d*\.\d+)|\d+)`: the engine prefers the fractional
alternative; its digit runs are forced to be maximal (a shorter run
leaves a digit where `.` or a non-digit is required), and when the
fractional alternative fails the integer alternative with the maximal
run is the only remaining choice. -/
def parseUNum (cs : List Char) : Option (List Char × List Char) :=
  let ds := cs.takeWhile Char.isDigit
  let r := cs.dropWhile Char.isDigit
  match r with
  | '.' :: r2 =>
      (match parseDigits r2 with
       | some (fs, r3) => some (ds ++ '.' :: fs, r3)
       | none => if ds.isEmpty then none else some (ds, r))
  | _ => if ds.isEmpty then none else some (ds, r)

/-- Capture `-?((\d*\.\d+)|\d+)`: optional sign (greedy is forced: an
unconsumed `-` is neither a digit nor a dot) and an unsigned numeral. -/
def parseNum (cs : List Char) : Option (List Char × List Char) :=
  match cs with
  | '-' :: rest =>
      (match parseUNum rest with
       | some (n, r) => some ('-' :: n, r)
       | none => none)
  | _ => parseUNum cs

/-- Tail `((ee)?(k(s)?)?)` after the literal `w`.  Greedy is forced: a
skipped `e`, `k` or `s` is a word character that no later pattern element
can consume. -/
def weekTail (cs : List Char) : List Char :=
  match cs with
  | 'e' :: 'e' :: r =>
      (match r with
       | 'k' :: r2 => optChar 's' r2
       | _ => r)
  | 'k' :: r2 => optChar 's' r2
  | _ => cs

/-- Tail `(ay(s)?)?` after the literal `d`. -/
def dayTail (cs : List Char) : List Char :=
  match cs with
  | 'a' :: 'y' :: r => optChar 's' r
  | _ => cs

/-- Tail `(ou)?(r(s)?)?` after the literal `h`. -/
def hourTail (cs : List Char) : List Char :=
  match cs with
  | 'o' :: 'u' :: r =>
      (match r with
       | 'r' :: r2 => optChar 's' r2
       | _ => r)
  | 'r' :: r2 => optChar 's' r2
  | _ => cs

/-- Tail `(in(ute)?(s)?)?` after the literal `m`. -/
def minTail (cs : List Char) : List Char :=
  match cs with
  | 'i' :: 'n' :: r =>
      (match r with
       | 'u' :: 't' :: 'e' :: r2 => optChar 's' r2
       | _ => optChar 's' r)
  | _ => cs

/-- Tail `(ec(ond)?(s)?)?` after the literal `s`. -/
def secTail (cs : List Char) : List Char :=
  match cs with
  | 'e' :: 'c' :: r =>
      (match r with
       | 'o' :: 'n' :: 'd' :: r2 => optChar 's' r2
       | _ => optChar 's' r)
  | _ => cs

/-- One component of the flexible grammar: signed numeral, `\W*`, the
unit letter, the unit tail, and (except for the seconds component, whose
group ends at its tail) `(,)?\W*`. -/
def flexComponent (letter : Char) (tail : List Char → List Char) (comma : Bool)
    (cs : List Char) : Option (List Char × List Char) :=
  match parseNum cs with
  | some (n, r) =>
      (match skipNonWord r with
       | c :: r2 =>
           if c = letter then
             some (n, if comma then skipNonWord (optChar ',' (tail r2)) else tail r2)
           else none
       | [] => none)
  | none => none

/-- The capture groups of the flexible grammar. -/
structure FlexGroups where
  weeks : Option (List Char)
  days : Option (List Char)
  hours : Option (List Char)
  minutes : Option (List Char)
  seconds : Option (List Char)
  deriving DecidableEq

/-- Run one optional component: on failure the group is absent and the
position is unchanged.  A matched component is never given up by the
engine: it has consumed its unit letter, a word character that no later
pattern element (a numeral, another unit letter, `\W*` or `$`) can
consume, so no overall match can exist in which this component matched
differently or not at all. -/
def tryComponent (letter : Char) (tail : List Char → List Char) (comma : Bool)
    (cs : List Char) : Option (List Char) × List Char :=
  match flexComponent letter tail comma cs with
  | some (n, r) => (some n, r)
  | none => (none, cs)

/-- The full flexible regex: the five optional components in order,
then `\W*$`. -/
def flexMatch (cs : List Char) : Option FlexGroups :=
  let w := tryComponent 'w' weekTail true cs
  let d := tryComponent 'd' dayTail true w.2
  let h := tryComponent 'h' hourTail true d.2
  let m := tryComponent 'm' minTail true h.2
  let s := tryComponent 's' secTail false m.2
  if skipNonWord s.2 = [] then some ⟨w.1, d.1, h.1, m.1, s.1⟩ else none

/-- The two Python `TypeError`s that `parse` can raise: the deliberate
"... is not a valid time interval" error carrying the input, and the
accidental string/int concatenation error raised by the sign-distribution
loop when the seconds group is absent. -/
inductive PyError where
  | invalidFormat (input : String)
  | strIntConcat
  deriving DecidableEq

/-- Outcome of `parse`: a `timedelta` identified with its total seconds,
or a raised error. -/
inductive ParseResult where
  | ok (totalSeconds : ℚ)
  | err (e : PyError)
  deriving DecidableEq

/-- The database-branch dictionary after `d.pop('sign', None)`. -/
structure DBFields where
  days : Option (List Char)
  hours : List Char
  minutes : List Char
  seconds : Option (List Char)
  deriving DecidableEq

/-- The sign-distribution loop: for `k` in hours, minutes, seconds set
`d[k] = '-' + d[k]` when the captured sign is `-`.  Hours and minutes are
mandatory captures, always strings; when the seconds group is absent its
`groupdict(0)` entry is the integer 0 and the concatenation raises a
`TypeError` before any aggregation happens. -/
def distribute (g : DBGroups) : Except PyError DBFields :=
  if g.sign = ['-'] then
    match g.seconds with
    | some ss => .ok ⟨g.days, '-' :: g.hours, '-' :: g.minutes, some ('-' :: ss)⟩
    | none => .error .strIntConcat
  else .ok ⟨g.days, g.hours, g.minutes, g.seconds⟩

/-- Total seconds of `timedelta(days=d, hours=h, minutes=m, seconds=s)`
built from the database-branch dictionary. -/
def dbTotal (f : DBFields) : ℚ :=
  86400 * floatOfGroup f.days + 3600 * floatOfStr f.hours
    + 60 * floatOfStr f.minutes + floatOfGroup f.seconds

/-- Total seconds of `timedelta(weeks=w, days=d, hours=h, minutes=m,
seconds=s)` built from the flexible-branch dictionary. -/
def flexTotal (g : FlexGroups) : ℚ :=
  604800 * floatOfGroup g.weeks + 86400 * floatOfGroup g.days
    + 3600 * floatOfGroup g.hours + 60 * floatOfGroup g.minutes
    + floatOfGroup g.seconds

/-- The function `parse`: empty check first, then the database grammar
with sign distribution, then the flexible grammar, then aggregation. -/
def parse (s : String) : ParseResult :=
  if s = "" then .err (.invalidFormat s)
  else
    match dbMatch s.data with
    | some g =>
        (match distribute g with
         | .ok f => .ok (dbTotal f)
         | .error e => .err e)
    | none =>
        match flexMatch s.data with
        | some g => .ok (flexTotal g)
        | none => .err (.invalidFormat s)

example : flexMatch ("1 day").data = some ⟨none, some ['1'], none, none, none⟩ := by decide
example : dbMatch ("1 day").data = none := by decide
example : dbMatch ("-1 day, -1:01:01").data
    = some ⟨some ['-', '1'], ['-'], ['1'], ['0', '1'], some ['0', '1']⟩ := by decide
example : parse "-1:01" = .err .strIntConcat := by decide
example : parse "" = .err (.invalidFormat "") := by decide
example : parse "2 ws" = .err (.invalidFormat "2 ws") := by decide
example : parse " hours" = .err (.invalidFormat " hours") := by decide

/-! ### Arithmetic evaluation lemmas

The grammar layer of the model is decidable list computation, but totals
live in `ℚ`, whose operations do not reduce definitionally; the lemmas
below bridge from captured digit strings to rational values. -/

theorem digit_ne (c x : Char) (h : c.isDigit = true) (hx : x.isDigit = false) :
    c ≠ x := by
  intro e
  rw [e, hx] at h
  exact Bool.noConfusion h

theorem digit_not_sign (c : Char) (h : c.isDigit = true) : ¬(c = '-' ∨ c = '+') := by
  rintro (rfl | rfl) <;> exact absurd h (by decide)

theorem digit_bne_dot (c : Char) (h : c.isDigit = true) : (c != '.') = true := by
  have hne := digit_ne c '.' h (by decide)
  simpa [bne_iff_ne] using hne

theorem takeWhile_append_all (p : Char → Bool) (as bs : List Char)
    (ha : ∀ c ∈ as, p c = true) :
    (as ++ bs).takeWhile p = as ++ bs.takeWhile p := by
  induction as with
  | nil => rfl
  | cons a t ih =>
      have hpa : p a = true := ha a (List.mem_cons_self a t)
      simp [List.takeWhile_cons, hpa, ih (fun c hc => ha c (List.mem_cons_of_mem a hc))]

theorem dropWhile_append_all (p : Char → Bool) (as bs : List Char)
    (ha : ∀ c ∈ as, p c = true) :
    (as ++ bs).dropWhile p = bs.dropWhile p := by
  induction as with
  | nil => rfl
  | cons a t ih =>
      have hpa : p a = true := ha a (List.mem_cons_self a t)
      simp [List.dropWhile_cons, hpa, ih (fun c hc => ha c (List.mem_cons_of_mem a hc))]

theorem unsignedVal_digits (cs : List Char) (h : ∀ c ∈ cs, c.isDigit = true) :
    unsignedVal cs = natOfDigits cs := by
  have hd : ∀ c ∈ cs, (c != '.') = true := fun c hc => digit_bne_dot c (h c hc)
  unfold unsignedVal
  rw [List.takeWhile_eq_self_iff.mpr hd, List.dropWhile_eq_nil_iff.mpr hd]

theorem unsignedVal_frac (as bs : List Char) (h : ∀ c ∈ as, c.isDigit = true) :
    unsignedVal (as ++ '.' :: bs)
      = natOfDigits as + (natOfDigits bs : ℚ) / 10 ^ bs.length := by
  have hd : ∀ c ∈ as, (c != '.') = true := fun c hc => digit_bne_dot c (h c hc)
  unfold unsignedVal
  rw [takeWhile_append_all _ _ _ hd, dropWhile_append_all _ _ _ hd]
  simp [List.takeWhile_cons, List.dropWhile_cons]

theorem floatOfStr_neg (cs : List Char) : floatOfStr ('-' :: cs) = -unsignedVal cs := by
  simp [floatOfStr]

theorem floatOfStr_digits (cs : List Char) (h : ∀ c ∈ cs, c.isDigit = true) :
    floatOfStr cs = natOfDigits cs := by
  match cs with
  | [] => simp [floatOfStr, natOfDigits]
  | c :: rest =>
      have hc := h c (List.mem_cons_self c rest)
      have h1 : c ≠ '-' := digit_ne c '-' hc (by decide)
      have h2 : c ≠ '+' := digit_ne c '+' hc (by decide)
      rw [show floatOfStr (c :: rest)
            = if c = '-' then -unsignedVal rest
              else if c = '+' then unsignedVal rest else unsignedVal (c :: rest) from rfl,
          if_neg h1, if_neg h2, unsignedVal_digits _ h]

theorem floatOfStr_head_digit (c : Char) (rest : List Char) (hc : c.isDigit = true) :
    floatOfStr (c :: rest) = unsignedVal (c :: rest) := by
  have h1 : c ≠ '-' := digit_ne c '-' hc (by decide)
  have h2 : c ≠ '+' := digit_ne c '+' hc (by decide)
  rw [show floatOfStr (c :: rest)
        = if c = '-' then -unsignedVal rest
          else if c = '+' then unsignedVal rest else unsignedVal (c :: rest) from rfl,
      if_neg h1, if_neg h2]

theorem floatOfStr_of_digits (cs : List Char) (n : Nat) (h : ∀ c ∈ cs, c.isDigit = true)
    (hn : natOfDigits cs = n) : floatOfStr cs = n := by
  rw [floatOfStr_digits cs h, hn]

theorem floatOfStr_neg_digits (cs : List Char) (n : Nat) (h : ∀ c ∈ cs, c.isDigit = true)
    (hn : natOfDigits cs = n) : floatOfStr ('-' :: cs) = -(n : ℚ) := by
  rw [floatOfStr_neg, unsignedVal_digits cs h, hn]

/-! ### Evaluation lemmas for `parse` -/

theorem dbMatch_nil : dbMatch [] = none := rfl

theorem parse_flex_val (s : String) (g : FlexGroups) (q : ℚ) (hne : s ≠ "")
    (hdb : dbMatch s.data = none) (hfx : flexMatch s.data = some g)
    (hv : flexTotal g = q) : parse s = .ok q := by
  unfold parse
  rw [if_neg hne]
  simp only [hdb, hfx]
  exact congrArg ParseResult.ok hv

theorem parse_db_val (s : String) (g : DBGroups) (f : DBFields) (q : ℚ) (hne : s ≠ "")
    (hdb : dbMatch s.data = some g) (hd : distribute g = .ok f)
    (hv : dbTotal f = q) : parse s = .ok q := by
  unfold parse
  rw [if_neg hne]
  simp only [hdb, hd]
  exact congrArg ParseResult.ok hv

/-! ### Database-grammar evaluation on abstract digit strings -/

theorem takeWhile_digit_nil (c : Char) (t : List Char) (h : c.isDigit = false) :
    (c :: t).takeWhile Char.isDigit = [] := by
  simp [List.takeWhile_cons, h]

theorem dropWhile_digit_id (c : Char) (t : List Char) (h : c.isDigit = false) :
    (c :: t).dropWhile Char.isDigit = c :: t := by
  simp [List.dropWhile_cons, h]

theorem parseDigits_spec (a : Char) (ds rest : List Char)
    (h2 : ∀ c ∈ a :: ds, c.isDigit = true)
    (h3 : rest.takeWhile Char.isDigit = []) (h4 : rest.dropWhile Char.isDigit = rest) :
    parseDigits ((a :: ds) ++ rest) = some (a :: ds, rest) := by
  unfold parseDigits
  rw [takeWhile_append_all _ _ _ h2, dropWhile_append_all _ _ _ h2, h3, h4, List.append_nil]
  rfl

theorem parseDigits_all (a : Char) (ds : List Char) (h2 : ∀ c ∈ a :: ds, c.isDigit = true) :
    parseDigits (a :: ds) = some (a :: ds, []) := by
  have h := parseDigits_spec a ds [] h2 rfl rfl
  rwa [List.append_nil] at h

theorem parseSecondsCap_all (a : Char) (ds : List Char)
    (h2 : ∀ c ∈ a :: ds, c.isDigit = true) :
    parseSecondsCap (a :: ds) = some (a :: ds, []) := by
  unfold parseSecondsCap
  rw [parseDigits_all a ds h2]

theorem parseClock_hm (a : Char) (hs ms : List Char)
    (hhs : ∀ c ∈ a :: hs, c.isDigit = true) (hne : ms ≠ [])
    (hms : ∀ c ∈ ms, c.isDigit = true) :
    parseClock ((a :: hs) ++ ':' :: ms) = some ([], a :: hs, ms, none) := by
  obtain ⟨b, t, rfl⟩ : ∃ b t, ms = b :: t := by
    cases ms with
    | nil => exact absurd rfl hne
    | cons b t => exact ⟨b, t, rfl⟩
  have hna := digit_not_sign a (hhs a (List.mem_cons_self a hs))
  have h1 : parseDigits ((a :: hs) ++ ':' :: b :: t) = some (a :: hs, ':' :: b :: t) :=
    parseDigits_spec a hs (':' :: b :: t) hhs (takeWhile_digit_nil ':' _ (by decide))
      (dropWhile_digit_id ':' _ (by decide))
  have h2 := parseDigits_all b t hms
  simp only [List.cons_append] at h1 h2
  unfold parseClock
  simp only [List.cons_append, if_neg hna, h1, h2]

theorem parseClock_hms (a b : Char) (hs ms ss : List Char)
    (hhs : ∀ c ∈ a :: hs, c.isDigit = true) (hms : ∀ c ∈ b :: ms, c.isDigit = true)
    (hss : ss ≠ []) (hs6 : ∀ c ∈ ss, c.isDigit = true) :
    parseClock ((a :: hs) ++ ':' :: ((b :: ms) ++ ':' :: ss))
      = some ([], a :: hs, b :: ms, some ss) := by
  obtain ⟨e, t, rfl⟩ : ∃ e t, ss = e :: t := by
    cases ss with
    | nil => exact absurd rfl hss
    | cons e t => exact ⟨e, t, rfl⟩
  have hna := digit_not_sign a (hhs a (List.mem_cons_self a hs))
  have h1 : parseDigits ((a :: hs) ++ ':' :: ((b :: ms) ++ ':' :: e :: t))
      = some (a :: hs, ':' :: ((b :: ms) ++ ':' :: e :: t)) :=
    parseDigits_spec a hs _ hhs (takeWhile_digit_nil ':' _ (by decide))
      (dropWhile_digit_id ':' _ (by decide))
  have h2 : parseDigits ((b :: ms) ++ ':' :: e :: t) = some (b :: ms, ':' :: e :: t) :=
    parseDigits_spec b ms _ hms (takeWhile_digit_nil ':' _ (by decide))
      (dropWhile_digit_id ':' _ (by decide))
  have h3 := parseSecondsCap_all e t hs6
  simp only [List.cons_append] at h1 h2
  unfold parseClock
  simp only [List.cons_append, if_neg hna, h1, h2, h3]

theorem parseDayPart_colon (a : Char) (hs rest : List Char)
    (hhs : ∀ c ∈ a :: hs, c.isDigit = true) :
    parseDayPart ((a :: hs) ++ ':' :: rest) = none := by
  have hna := digit_not_sign a (hhs a (List.mem_cons_self a hs))
  have h1 : parseDigits ((a :: hs) ++ ':' :: rest) = some (a :: hs, ':' :: rest) :=
    parseDigits_spec a hs (':' :: rest) hhs (takeWhile_digit_nil ':' _ (by decide))
      (dropWhile_digit_id ':' _ (by decide))
  simp only [List.cons_append] at h1
  unfold parseDayPart parseSignedInt
  simp only [List.cons_append, if_neg hna, h1]
  rfl

theorem dbMatch_hm (a : Char) (hs ms : List Char)
    (hhs : ∀ c ∈ a :: hs, c.isDigit = true) (hne : ms ≠ [])
    (hms : ∀ c ∈ ms, c.isDigit = true) :
    dbMatch ((a :: hs) ++ ':' :: ms) = some ⟨none, [], a :: hs, ms, none⟩ := by
  unfold dbMatch
  rw [parseDayPart_colon a hs ms hhs, parseClock_hm a hs ms hhs hne hms]

theorem dbMatch_hms (a b : Char) (hs ms ss : List Char)
    (hhs : ∀ c ∈ a :: hs, c.isDigit = true) (hms : ∀ c ∈ b :: ms, c.isDigit = true)
    (hss : ss ≠ []) (hs6 : ∀ c ∈ ss, c.isDigit = true) :
    dbMatch ((a :: hs) ++ ':' :: ((b :: ms) ++ ':' :: ss))
      = some ⟨none, [], a :: hs, b :: ms, some ss⟩ := by
  unfold dbMatch
  rw [parseDayPart_colon a hs _ hhs, parseClock_hms a b hs ms ss hhs hms hss hs6]

/-! ### Claims -/

/-- C1, counterexample.  The claim asserts that in the flexible grammar
every written `-` sign is honored independently of position, so that in
the quoted example the hours field would contribute -3*3600 and the
seconds field -5 (total -442565).  In fact the trailing `\W*` of the
preceding component swallows the interior `-` signs: the captured hours
group is the unsigned `3`, the captured seconds group is `5`, and the
total is -420955, not the sum of independently signed components. -/
theorem c1_counterexample :
    flexMatch ("-1 weeks, 2 days, -3 hours, 4 minutes, -5 seconds").data
      = some ⟨some ['-', '1'], some ['2'], some ['3'], some ['4'], some ['5']⟩
    ∧ parse "-1 weeks, 2 days, -3 hours, 4 minutes, -5 seconds" = .ok (-420955)
    ∧ ((-420955 : ℚ)
        ≠ (-1) * 604800 + 2 * 86400 + (-3) * 3600 + 4 * 60 + (-5)) := by
  refine ⟨by decide, ?_, by norm_num⟩
  refine parse_flex_val _ ⟨some ['-', '1'], some ['2'], some ['3'], some ['4'], some ['5']⟩ _
    (by decide) (by decide) (by decide) ?_
  rw [flexTotal]
  simp only [floatOfGroup, floatOfStr_neg_digits ['1'] 1 (by decide) rfl,
    floatOfStr_of_digits ['2'] 2 (by decide) rfl, floatOfStr_of_digits ['3'] 3 (by decide) rfl,
    floatOfStr_of_digits ['4'] 4 (by decide) rfl, floatOfStr_of_digits ['5'] 5 (by decide) rfl]
  norm_num

/-- C1, amended.  Only a `-` standing before the first matched component
of a flexible-grammar input negates that component; a `-` before any
later component is consumed as separator filler by the `\W*` of the
preceding component, and that later component contributes with positive
sign.  Witnessed by: a leading `-3 hours` parses to -10800; after a
matched `2 days, ` the same `-3 hours` is captured as the unsigned `3`
and the total is 2*86400 + 3*3600 = 183600; the mixed example of the
specification parses to -420955 = -604800 + 172800 + 10800 + 240 + 5. -/
theorem c1_first_sign_only :
    parse "-3 hours" = .ok (-10800)
    ∧ flexMatch ("2 days, -3 hours").data
        = some ⟨none, some ['2'], some ['3'], none, none⟩
    ∧ parse "2 days, -3 hours" = .ok 183600
    ∧ parse "-1 weeks, 2 days, -3 hours, 4 minutes, -5 seconds" = .ok (-420955) := by
  refine ⟨?_, by decide, ?_, ?_⟩
  · refine parse_flex_val _ ⟨none, none, some ['-', '3'], none, none⟩ _
      (by decide) (by decide) (by decide) ?_
    rw [flexTotal]
    simp only [floatOfGroup, floatOfStr_neg_digits ['3'] 3 (by decide) rfl]
    norm_num
  · refine parse_flex_val _ ⟨none, some ['2'], some ['3'], none, none⟩ _
      (by decide) (by decide) (by decide) ?_
    rw [flexTotal]
    simp only [floatOfGroup, floatOfStr_of_digits ['2'] 2 (by decide) rfl,
      floatOfStr_of_digits ['3'] 3 (by decide) rfl]
    norm_num
  · refine parse_flex_val _ ⟨some ['-', '1'], some ['2'], some ['3'], some ['4'], some ['5']⟩ _
      (by decide) (by decide) (by decide) ?_
    rw [flexTotal]
    simp only [floatOfGroup, floatOfStr_neg_digits ['1'] 1 (by decide) rfl,
      floatOfStr_of_digits ['2'] 2 (by decide) rfl, floatOfStr_of_digits ['3'] 3 (by decide) rfl,
      floatOfStr_of_digits ['4'] 4 (by decide) rfl, floatOfStr_of_digits ['5'] 5 (by decide) rfl]
    norm_num

/-- C2, counterexample.  The claim quantifies over every input matching
the database grammar whose clock time carries a leading `-`.  The input
"-1:02" matches that grammar with sign `-` and an absent seconds group,
and on it `parse` does not negate-and-aggregate: it raises the
string/int concatenation `TypeError` of the sign-distribution loop. -/
theorem c2_counterexample :
    dbMatch ("-1:02").data = some ⟨none, ['-'], ['1'], ['0', '2'], none⟩
    ∧ parse "-1:02" = .err .strIntConcat :=
  ⟨by decide, by decide⟩

/-- C2, amended.  For every input matching the database grammar whose
clock time carries a leading `-` and whose seconds component is present,
`parse` negates hours, minutes and seconds together: the result is
86400 times the day value minus (3600*hours + 60*minutes + seconds),
where hours, minutes, seconds are the unsigned captured magnitudes.
In particular "-1:01:01" yields -3661, not -3600 + 61. -/
theorem c2_sign_distribution (s : String) (g : DBGroups) (ss : List Char)
    (hdb : dbMatch s.data = some g) (hsg : g.sign = ['-']) (hsec : g.seconds = some ss) :
    parse s = .ok (86400 * floatOfGroup g.days
      - (3600 * unsignedVal g.hours + 60 * unsignedVal g.minutes + unsignedVal ss)) := by
  have hne : s ≠ "" := by
    intro h
    rw [h] at hdb
    rw [show ("" : String).data = [] from rfl, dbMatch_nil] at hdb
    exact Option.noConfusion hdb
  have hd : distribute g
      = .ok ⟨g.days, '-' :: g.hours, '-' :: g.minutes, some ('-' :: ss)⟩ := by
    unfold distribute
    rw [if_pos hsg, hsec]
  refine parse_db_val s g _ _ hne hdb hd ?_
  rw [dbTotal]
  simp only [floatOfGroup, floatOfStr_neg]
  ring

/-- C2, witness: the amended theorem applied to "-1:01:01" gives the
stated total -3661 seconds. -/
theorem c2_sign_distribution_witness : parse "-1:01:01" = .ok (-3661) := by
  have h := c2_sign_distribution "-1:01:01" ⟨none, ['-'], ['1'], ['0', '1'], some ['0', '1']⟩
    ['0', '1'] (by decide) rfl rfl
  rw [h]
  simp only [floatOfGroup, unsignedVal_digits ['1'] (by decide),
    unsignedVal_digits ['0', '1'] (by decide)]
  norm_num [ParseResult.ok.injEq, show natOfDigits ['1'] = 1 from rfl,
    show natOfDigits ['0', '1'] = 1 from rfl]

/-- C3, counterexample.  The claim states that "-1 day, -1:01:01" parses
to a total of -172861 seconds.  The actual total is -90061 seconds
(equal to -2 days + 82739 seconds, the very decomposition given by the
specification; -172861 is an arithmetic slip). -/
theorem c3_counterexample :
    parse "-1 day, -1:01:01" = .ok (-90061) ∧ ((-90061 : ℚ) ≠ -172861) := by
  refine ⟨?_, by norm_num⟩
  refine parse_db_val _ ⟨some ['-', '1'], ['-'], ['1'], ['0', '1'], some ['0', '1']⟩
    ⟨some ['-', '1'], ['-', '1'], ['-', '0', '1'], some ['-', '0', '1']⟩ _
    (by decide) (by decide) rfl ?_
  rw [dbTotal]
  simp only [floatOfGroup, floatOfStr_neg_digits ['1'] 1 (by decide) rfl,
    floatOfStr_neg_digits ['0', '1'] 1 (by decide) rfl]
  norm_num

/-- C3, amended.  Under the fixed conversion (1 week = 7 days, 1 day =
86400 s, 1 hour = 3600 s, 1 minute = 60 s) the concrete scenarios of the
specification evaluate to: "1 day" -> 86400; "1 hour, 5 mins" -> 3900;
"4.2 hours" -> 15120; "-1 day, -1:01:01" -> -90061 = -2 days + 82739 s
(not -172861); "-1 weeks, 2 days, -3 hours, 4 minutes, -5 seconds" ->
-420955 = -5 days + 11045 s (not -432955). -/
theorem c3_concrete_scenarios :
    parse "1 day" = .ok 86400
    ∧ parse "1 hour, 5 mins" = .ok 3900
    ∧ parse "4.2 hours" = .ok 15120
    ∧ parse "-1 day, -1:01:01" = .ok (-90061)
    ∧ ((-90061 : ℚ) = -2 * 86400 + 82739)
    ∧ parse "-1 weeks, 2 days, -3 hours, 4 minutes, -5 seconds" = .ok (-420955)
    ∧ ((-420955 : ℚ) = -5 * 86400 + 11045) := by
  refine ⟨?_, ?_, ?_, ?_, by norm_num, ?_, by norm_num⟩
  · refine parse_flex_val _ ⟨none, some ['1'], none, none, none⟩ _
      (by decide) (by decide) (by decide) ?_
    rw [flexTotal]
    simp only [floatOfGroup, floatOfStr_of_digits ['1'] 1 (by decide) rfl]
    norm_num
  · refine parse_flex_val _ ⟨none, none, some ['1'], some ['5'], none⟩ _
      (by decide) (by decide) (by decide) ?_
    rw [flexTotal]
    simp only [floatOfGroup, floatOfStr_of_digits ['1'] 1 (by decide) rfl,
      floatOfStr_of_digits ['5'] 5 (by decide) rfl]
    norm_num
  · refine parse_flex_val _ ⟨none, none, some ['4', '.', '2'], none, none⟩ _
      (by decide) (by decide) (by decide) ?_
    have h42 : floatOfStr ['4', '.', '2'] = 21 / 5 := by
      rw [floatOfStr_head_digit '4' ['.', '2'] (by decide),
        show ('4' :: ['.', '2'] : List Char) = ['4'] ++ '.' :: ['2'] from rfl,
        unsignedVal_frac ['4'] ['2'] (by decide)]
      norm_num [show natOfDigits ['4'] = 4 from rfl, show natOfDigits ['2'] = 2 from rfl]
    rw [flexTotal]
    simp only [floatOfGroup, h42]
    norm_num
  · refine parse_db_val _ ⟨some ['-', '1'], ['-'], ['1'], ['0', '1'], some ['0', '1']⟩
      ⟨some ['-', '1'], ['-', '1'], ['-', '0', '1'], some ['-', '0', '1']⟩ _
      (by decide) (by decide) rfl ?_
    rw [dbTotal]
    simp only [floatOfGroup, floatOfStr_neg_digits ['1'] 1 (by decide) rfl,
      floatOfStr_neg_digits ['0', '1'] 1 (by decide) rfl]
    norm_num
  · refine parse_flex_val _ ⟨some ['-', '1'], some ['2'], some ['3'], some ['4'], some ['5']⟩ _
      (by decide) (by decide) (by decide) ?_
    rw [flexTotal]
    simp only [floatOfGroup, floatOfStr_neg_digits ['1'] 1 (by decide) rfl,
      floatOfStr_of_digits ['2'] 2 (by decide) rfl, floatOfStr_of_digits ['3'] 3 (by decide) rfl,
      floatOfStr_of_digits ['4'] 4 (by decide) rfl, floatOfStr_of_digits ['5'] 5 (by decide) rfl]
    norm_num

/-- C4, code bug.  The input "-1:01" matches the database grammar with a
leading `-` and no seconds component.  The specification says the parse
succeeds with hours and minutes negated and seconds zero (-3660 total);
the code instead crashes in the sign-distribution loop, concatenating
the string "-" with the integer 0 that `groupdict(0)` returns for the
absent seconds group.  This theorem evaluates the model at the failing
input. -/
theorem c4_missing_seconds_crash :
    dbMatch ("-1:01").data = some ⟨none, ['-'], ['1'], ['0', '1'], none⟩
    ∧ parse "-1:01" = .err .strIntConcat :=
  ⟨by decide, by decide⟩

/-- C5.  The empty string always fails with the invalid-format error, and
the check happens before any grammar match is attempted: the flexible
grammar by itself would accept the empty input with all groups absent,
yet `parse` still rejects it. -/
theorem c5_empty_invalid :
    parse "" = .err (.invalidFormat "")
    ∧ flexMatch ("" : String).data = some ⟨none, none, none, none, none⟩ :=
  ⟨by decide, by decide⟩

/-- C6.  Every input that matches neither grammar in full fails with the
invalid-format error; in particular a bare unit word with no leading
number (" hours") and each unrecognized doubled-letter abbreviation
("2 ws", "2 ds", "2 hs", "2 ms", "2 ss"). -/
theorem c6_no_match_invalid :
    (∀ s : String, dbMatch s.data = none → flexMatch s.data = none →
      parse s = .err (.invalidFormat s))
    ∧ parse " hours" = .err (.invalidFormat " hours")
    ∧ parse "2 ws" = .err (.invalidFormat "2 ws")
    ∧ parse "2 ds" = .err (.invalidFormat "2 ds")
    ∧ parse "2 hs" = .err (.invalidFormat "2 hs")
    ∧ parse "2 ms" = .err (.invalidFormat "2 ms")
    ∧ parse "2 ss" = .err (.invalidFormat "2 ss") := by
  refine ⟨?_, by decide, by decide, by decide, by decide, by decide, by decide⟩
  intro s hdb hfx
  by_cases he : s = ""
  · subst he
    decide
  · unfold parse
    rw [if_neg he]
    simp only [hdb, hfx]

/-- C6, witness: the universal part applied to the concrete non-matching
input "abc". -/
theorem c6_no_match_invalid_witness : parse "abc" = .err (.invalidFormat "abc") :=
  c6_no_match_invalid.1 "abc" (by decide) (by decide)

/-- C7, counterexample.  The claim says the invalid-format error carrying
the input is the only error `parse` can raise.  On "-2:03" the parse
fails with the string/int concatenation error instead, which does not
carry the input. -/
theorem c7_counterexample :
    parse "-2:03" = .err .strIntConcat
    ∧ PyError.strIntConcat ≠ .invalidFormat "-2:03" :=
  ⟨by decide, by decide⟩

/-- C7, amended.  Every error raised by `parse` is either the
invalid-format error carrying the original input unmodified, or the
accidental string/int concatenation error, and the latter occurs exactly
on inputs matching the database grammar with captured sign `-` and an
absent seconds group. -/
theorem c7_error_kinds (s : String) (e : PyError) (h : parse s = .err e) :
    e = .invalidFormat s
      ∨ (e = .strIntConcat ∧ ∃ g : DBGroups,
          dbMatch s.data = some g ∧ g.sign = ['-'] ∧ g.seconds = none) := by
  unfold parse at h
  by_cases he : s = ""
  · rw [if_pos he] at h
    injection h with h2
    exact Or.inl h2.symm
  · rw [if_neg he] at h
    cases hdb : dbMatch s.data with
    | some g =>
        simp only [hdb] at h
        cases hd : distribute g with
        | ok f =>
            simp only [hd] at h
            exact ParseResult.noConfusion h
        | error e2 =>
            simp only [hd] at h
            injection h with h2
            subst h2
            unfold distribute at hd
            by_cases hsg : g.sign = ['-']
            · rw [if_pos hsg] at hd
              cases hsec : g.seconds with
              | some ss =>
                  rw [hsec] at hd
                  exact Except.noConfusion hd
              | none =>
                  rw [hsec] at hd
                  injection hd with h3
                  exact Or.inr ⟨h3.symm, g, rfl, hsg, hsec⟩
            · rw [if_neg hsg] at hd
              exact Except.noConfusion hd
    | none =>
        simp only [hdb] at h
        cases hfx : flexMatch s.data with
        | some g =>
            simp only [hfx] at h
            exact ParseResult.noConfusion h
        | none =>
            simp only [hfx] at h
            injection h with h2
            exact Or.inl h2.symm

/-- C7, witness: the amended theorem applied to the rejected input "xy",
whose failure is the invalid-format error carrying "xy". -/
theorem c7_error_kinds_witness :
    PyError.invalidFormat "xy" = .invalidFormat "xy"
      ∨ (PyError.invalidFormat "xy" = .strIntConcat ∧ ∃ g : DBGroups,
          dbMatch ("xy" : String).data = some g ∧ g.sign = ['-'] ∧ g.seconds = none) :=
  c7_error_kinds "xy" (.invalidFormat "xy") (by decide)

/-- C8, counterexample.  The claim is a string-level universal: for every
valid flexible-grammar input, omitting a component is equivalent to
supplying that component with magnitude 0 in the same input.  It fails:
"-3 hours" parses to -10800, but supplying the absent weeks component as
a zero gives "0 weeks, -3 hours", in which the trailing separator of the
inserted component swallows the minus sign of the hours component (the
hours capture becomes the unsigned "3"), and the parsed value changes to
+10800. -/
theorem c8_counterexample :
    parse "-3 hours" = .ok (-10800)
    ∧ flexMatch ("0 weeks, -3 hours").data
        = some ⟨some ['0'], none, some ['3'], none, none⟩
    ∧ parse "0 weeks, -3 hours" = .ok 10800
    ∧ ((-10800 : ℚ) ≠ 10800) := by
  have h0 : floatOfStr ['0'] = 0 := by
    rw [floatOfStr_of_digits ['0'] 0 (by decide) rfl]
    norm_num
  refine ⟨?_, by decide, ?_, by norm_num⟩
  · refine parse_flex_val _ ⟨none, none, some ['-', '3'], none, none⟩ _
      (by decide) (by decide) (by decide) ?_
    rw [flexTotal]
    simp only [floatOfGroup, floatOfStr_neg_digits ['3'] 3 (by decide) rfl]
    norm_num
  · refine parse_flex_val _ ⟨some ['0'], none, some ['3'], none, none⟩ _
      (by decide) (by decide) (by decide) ?_
    rw [flexTotal]
    simp only [floatOfGroup, h0, floatOfStr_of_digits ['3'] 3 (by decide) rfl]
    norm_num

/-- C8, amended.  Omitting a unit is equivalent to supplying 0 for that
unit at the level of the extracted field set: every absent named group
defaults to 0 before numeric conversion, so replacing any absent capture
group by the captured text "0" leaves the aggregated total unchanged.
At the string level the equivalence holds only when the inserted
zero-magnitude component leaves the capture of the following components
unchanged ("0 weeks, 1 day, 0 hours, 0 minutes, 0 seconds" parses like
"1 day", and "0 weeks, 0 days, 3 hours" like "3 hours"); it fails when
the inserted component swallows a following minus sign, as in
"0 weeks, -3 hours" (+10800) against "-3 hours" (-10800). -/
theorem c8_omitted_unit_zero :
    (∀ g : FlexGroups, g.weeks = none →
      flexTotal {g with weeks := some ['0']} = flexTotal g)
    ∧ (∀ g : FlexGroups, g.days = none →
      flexTotal {g with days := some ['0']} = flexTotal g)
    ∧ (∀ g : FlexGroups, g.hours = none →
      flexTotal {g with hours := some ['0']} = flexTotal g)
    ∧ (∀ g : FlexGroups, g.minutes = none →
      flexTotal {g with minutes := some ['0']} = flexTotal g)
    ∧ (∀ g : FlexGroups, g.seconds = none →
      flexTotal {g with seconds := some ['0']} = flexTotal g)
    ∧ parse "0 weeks, 1 day, 0 hours, 0 minutes, 0 seconds" = parse "1 day"
    ∧ parse "0 weeks, 0 days, 3 hours" = parse "3 hours"
    ∧ parse "0 weeks, -3 hours" = .ok 10800
    ∧ parse "-3 hours" = .ok (-10800) := by
  have h0 : floatOfStr ['0'] = 0 := by
    rw [floatOfStr_of_digits ['0'] 0 (by decide) rfl]
    norm_num
  have hval : ∀ g : FlexGroups, flexTotal g
      = 604800 * floatOfGroup g.weeks + 86400 * floatOfGroup g.days
        + 3600 * floatOfGroup g.hours + 60 * floatOfGroup g.minutes
        + floatOfGroup g.seconds := fun g => rfl
  refine ⟨?_, ?_, ?_, ?_, ?_, ?_, ?_, ?_, ?_⟩
  · intro g hg
    rw [hval, hval]
    simp only [hg, floatOfGroup, h0]
  · intro g hg
    rw [hval, hval]
    simp only [hg, floatOfGroup, h0]
  · intro g hg
    rw [hval, hval]
    simp only [hg, floatOfGroup, h0]
  · intro g hg
    rw [hval, hval]
    simp only [hg, floatOfGroup, h0]
  · intro g hg
    rw [hval, hval]
    simp only [hg, floatOfGroup, h0]
  · have hL : parse "0 weeks, 1 day, 0 hours, 0 minutes, 0 seconds" = .ok 86400 := by
      refine parse_flex_val _ ⟨some ['0'], some ['1'], some ['0'], some ['0'], some ['0']⟩ _
        (by decide) (by decide) (by decide) ?_
      rw [flexTotal]
      simp only [floatOfGroup, h0, floatOfStr_of_digits ['1'] 1 (by decide) rfl]
      norm_num
    have hR : parse "1 day" = .ok 86400 := by
      refine parse_flex_val _ ⟨none, some ['1'], none, none, none⟩ _
        (by decide) (by decide) (by decide) ?_
      rw [flexTotal]
      simp only [floatOfGroup, floatOfStr_of_digits ['1'] 1 (by decide) rfl]
      norm_num
    rw [hL, hR]
  · have hL : parse "0 weeks, 0 days, 3 hours" = .ok 10800 := by
      refine parse_flex_val _ ⟨some ['0'], some ['0'], some ['3'], none, none⟩ _
        (by decide) (by decide) (by decide) ?_
      rw [flexTotal]
      simp only [floatOfGroup, h0, floatOfStr_of_digits ['3'] 3 (by decide) rfl]
      norm_num
    have hR : parse "3 hours" = .ok 10800 := by
      refine parse_flex_val _ ⟨none, none, some ['3'], none, none⟩ _
        (by decide) (by decide) (by decide) ?_
      rw [flexTotal]
      simp only [floatOfGroup, floatOfStr_of_digits ['3'] 3 (by decide) rfl]
      norm_num
    rw [hL, hR]
  · refine parse_flex_val _ ⟨some ['0'], none, some ['3'], none, none⟩ _
      (by decide) (by decide) (by decide) ?_
    rw [flexTotal]
    simp only [floatOfGroup, h0, floatOfStr_of_digits ['3'] 3 (by decide) rfl]
    norm_num
  · refine parse_flex_val _ ⟨none, none, some ['-', '3'], none, none⟩ _
      (by decide) (by decide) (by decide) ?_
    rw [flexTotal]
    simp only [floatOfGroup, floatOfStr_neg_digits ['3'] 3 (by decide) rfl]
    norm_num

/-- C8, witness: the weeks clause applied to the field set of "1 day". -/
theorem c8_omitted_unit_zero_witness :
    flexTotal ⟨some ['0'], some ['1'], none, none, none⟩
      = flexTotal ⟨none, some ['1'], none, none, none⟩ :=
  c8_omitted_unit_zero.1 ⟨none, some ['1'], none, none, none⟩ rfl

/-- C9, counterexample.  The claim says a non-empty input made of filler
characters only must fail with the invalid-format error.  The code
accepts ", ," through the flexible grammar with every group absent and
returns a zero duration. -/
theorem c9_counterexample :
    flexMatch (", ,").data = some ⟨none, none, none, none, none⟩
    ∧ parse ", ," = .ok 0
    ∧ parse ", ," ≠ .err (.invalidFormat ", ,") := by
  have hok : parse ", ," = .ok 0 := by
    refine parse_flex_val _ ⟨none, none, none, none, none⟩ _
      (by decide) (by decide) (by decide) ?_
    rw [flexTotal]
    simp only [floatOfGroup]
    norm_num
  refine ⟨by decide, hok, ?_⟩
  rw [hok]
  decide

/-- C9, amended.  Every non-empty input that is rejected by the database
grammar and matched by the flexible grammar with all five groups absent
parses successfully to the zero duration instead of failing. -/
theorem c9_filler_parses_to_zero (s : String) (hne : s ≠ "")
    (hdb : dbMatch s.data = none)
    (hfx : flexMatch s.data = some ⟨none, none, none, none, none⟩) :
    parse s = .ok 0 := by
  refine parse_flex_val s _ 0 hne hdb hfx ?_
  rw [flexTotal]
  simp only [floatOfGroup]
  norm_num

/-- C9, witness: the amended theorem applied to the filler input
" ,  , ". -/
theorem c9_filler_parses_to_zero_witness : parse " ,  , " = .ok 0 :=
  c9_filler_parses_to_zero " ,  , " (by decide) (by decide) (by decide)

/-- C10.  The database grammar performs no range validation: for every
input of shape H:MM or H:MM:SS made of decimal digits the parse succeeds
with total 3600*hours + 60*minutes (+ seconds), whatever the magnitudes
of the fields. -/
theorem c10_no_range_validation (hs ms ss : List Char)
    (h1 : hs ≠ []) (h2 : ∀ c ∈ hs, c.isDigit = true)
    (h3 : ms ≠ []) (h4 : ∀ c ∈ ms, c.isDigit = true)
    (h5 : ss ≠ []) (h6 : ∀ c ∈ ss, c.isDigit = true) :
    parse (String.mk (hs ++ ':' :: ms))
      = .ok (3600 * (natOfDigits hs : ℚ) + 60 * (natOfDigits ms : ℚ))
    ∧ parse (String.mk (hs ++ ':' :: (ms ++ ':' :: ss)))
      = .ok (3600 * (natOfDigits hs : ℚ) + 60 * (natOfDigits ms : ℚ)
          + (natOfDigits ss : ℚ)) := by
  obtain ⟨a, hs, rfl⟩ : ∃ a t, hs = a :: t := by
    cases hs with
    | nil => exact absurd rfl h1
    | cons a t => exact ⟨a, t, rfl⟩
  obtain ⟨b, ms, rfl⟩ : ∃ b t, ms = b :: t := by
    cases ms with
    | nil => exact absurd rfl h3
    | cons b t => exact ⟨b, t, rfl⟩
  constructor
  · refine parse_db_val _ ⟨none, [], a :: hs, b :: ms, none⟩ ⟨none, a :: hs, b :: ms, none⟩ _
      ?_ (dbMatch_hm a hs (b :: ms) h2 (by simp) h4) rfl ?_
    · intro hcon
      have hdata := congrArg String.data hcon
      simp at hdata
    · rw [dbTotal, floatOfStr_digits (a :: hs) h2, floatOfStr_digits (b :: ms) h4]
      simp only [floatOfGroup]
      ring
  · refine parse_db_val _ ⟨none, [], a :: hs, b :: ms, some ss⟩
      ⟨none, a :: hs, b :: ms, some ss⟩ _
      ?_ (dbMatch_hms a b hs ms ss h2 h4 h5 h6) rfl ?_
    · intro hcon
      have hdata := congrArg String.data hcon
      simp at hdata
    · rw [dbTotal, floatOfStr_digits (a :: hs) h2, floatOfStr_digits (b :: ms) h4]
      simp only [floatOfGroup, floatOfStr_digits ss h6]
      ring

/-- C10, witness: the out-of-range clock time "0:99:99" parses to 6039
seconds. -/
theorem c10_no_range_validation_witness : parse "0:99:99" = .ok 6039 := by
  have h := (c10_no_range_validation ['0'] ['9', '9'] ['9', '9'] (by decide) (by decide)
    (by decide) (by decide) (by decide) (by decide)).2
  rw [(by decide : String.mk (['0'] ++ ':' :: (['9', '9'] ++ ':' :: ['9', '9'])) = "0:99:99")] at h
  rw [h]
  norm_num [ParseResult.ok.injEq, show natOfDigits ['0'] = 0 from rfl,
    show natOfDigits ['9', '9'] = 99 from rfl]

end Timedelta
